import Mathlib

/-!
Shallow embedding of the command-dispatch engine and bounded action loop of
the `ai-os` repository (TypeScript), together with theorems settling the
frozen claims about it.

Embedded source files:
* `src/features/notes/commands/notes.ts` — the `notes` category command:
  sub-command routing, help generation, the inline parameter-binding loop,
  and the nested-handler fault boundary.
* `src/features/notes/commands/{create,edit,delete,list}Note.ts` and
  `searchNote.ts`, `subCommandsRegistry.ts` — the concrete nested registry.
* `src/terminal/terminalCore.ts` — `TerminalCore.runLoop`,
  `parseFunctionCall`, and the `execute_terminal_command` tool.
* `src/supabase/functions/terminal/terminalEntries.ts` and
  `terminalHistory.ts` — the persistence collaborators (modelled by which
  failures they swallow and which they rethrow).

JavaScript machine values that the code manipulates (strings, numbers,
`undefined`, arrays of tokens) are modelled by `JSValue`; JS numbers by
`JSNum` (rationals plus the two infinities, with `NaN` as `Option.none` at
the only place it arises, numeric parsing). Asynchronous calls are modelled
by their resolved value; a rejected promise / thrown value is modelled by
the string JS would interpolate for it.
-/

deriving instance DecidableEq for Except

namespace AiOS

/-! ## JS numbers and `Number(string)` parsing -/

/-- A JavaScript number that is not `NaN`: a finite value (modelled as a
rational; float rounding is not modelled) or one of the two infinities. -/
inductive JSNum where
  | val (q : ℚ)
  | inf
  | negInf
deriving DecidableEq, Repr

/-- Value of `c` as a digit in base `base`, if it is one. -/
def digitVal? (base : ℕ) (c : Char) : Option ℕ :=
  let v :=
    if '0' ≤ c ∧ c ≤ '9' then some (c.toNat - '0'.toNat)
    else if 'a' ≤ c ∧ c ≤ 'f' then some (c.toNat - 'a'.toNat + 10)
    else if 'A' ≤ c ∧ c ≤ 'F' then some (c.toNat - 'A'.toNat + 10)
    else none
  match v with
  | some d => if d < base then some d else none
  | none => none

/-- Reads a maximal run of base-`base` digits; returns the accumulated value,
the count of digits read, and the rest of the characters. -/
def readDigits (base : ℕ) : List Char → ℕ → ℕ → ℕ × ℕ × List Char
  | [], acc, cnt => (acc, cnt, [])
  | c :: rest, acc, cnt =>
    match digitVal? base c with
    | some d => readDigits base rest (acc * base + d) (cnt + 1)
    | none => (acc, cnt, c :: rest)

/-- Reads the optional exponent part of a decimal literal; exactly the
remaining characters must form it (empty means exponent 0). -/
def readExponent : List Char → Option ℤ
  | [] => some 0
  | c :: rest =>
    if c = 'e' ∨ c = 'E' then
      let (sgn, rest') : ℤ × List Char :=
        match rest with
        | '+' :: r => (1, r)
        | '-' :: r => (-1, r)
        | r => (1, r)
      let (e, cnt, rest'') := readDigits 10 rest' 0 0
      if cnt = 0 ∨ rest'' ≠ [] then none else some (sgn * (e : ℤ))
    else none

/-- The rational `m * 10 ^ e` (denominator-free construction, so that
concrete values reduce inside the kernel). -/
def decToRat (m : ℤ) (e : ℤ) : ℚ :=
  if 0 ≤ e then Rat.ofInt (m * (10 : ℤ) ^ e.toNat)
  else mkRat m ((10 : ℕ) ^ (-e).toNat)

/-- Parses an unsigned decimal literal `digits [. digits] [exponent]`
(consuming everything) into its mantissa and power-of-ten exponent; `none`
means the characters are not one. -/
def parseDecimal (cs : List Char) : Option (ℤ × ℤ) :=
  let (ip, icnt, rest1) := readDigits 10 cs 0 0
  match rest1 with
  | '.' :: rest2 =>
    let (fp, fcnt, rest3) := readDigits 10 rest2 0 0
    if icnt = 0 ∧ fcnt = 0 then none
    else
      match readExponent rest3 with
      | some e => some (((ip * 10 ^ fcnt + fp : ℕ) : ℤ), e - (fcnt : ℤ))
      | none => none
  | _ =>
    if icnt = 0 then none
    else
      match readExponent rest1 with
      | some e => some ((ip : ℤ), e)
      | none => none

/-- A radix-prefixed literal (`0x…`, `0o…`, `0b…`): digits of the base,
consuming everything. -/
def radixLit (base : ℕ) (cs : List Char) : Option JSNum :=
  let (v, cnt, rest) := readDigits base cs 0 0
  if cnt = 0 ∨ rest ≠ [] then none else some (.val (Rat.ofInt (v : ℤ)))

/-- A decimal literal with optional sign, or signed `Infinity`. -/
def signedDecimal (cs : List Char) : Option JSNum :=
  let (neg, rest) :=
    match cs with
    | '+' :: r => (false, r)
    | '-' :: r => (true, r)
    | r => (false, r)
  if rest = "Infinity".toList then some (if neg then .negInf else .inf)
  else
    match parseDecimal rest with
    | some me => some (.val (decToRat (if neg then -me.1 else me.1) me.2))
    | none => none

/-- Whitespace stripped by JS `Number(string)` (the common code points). -/
def isJsWhitespace (c : Char) : Bool :=
  c = ' ' ∨ c = '\t' ∨ c = '\n' ∨ c = '\r' ∨ c = '\x0b' ∨ c = '\x0c'

/-- Model of the JavaScript `Number(string)` conversion used by the binding
loop (`Number(value)` at notes.ts line 111): trim whitespace, empty means 0,
then a signed decimal literal, signed `Infinity`, or a radix-prefixed
integer literal. `none` models `NaN`. -/
def jsNumber (s : String) : Option JSNum :=
  let cs := ((s.toList.dropWhile isJsWhitespace).reverse.dropWhile isJsWhitespace).reverse
  match cs with
  | [] => some (.val 0)
  | '0' :: x :: rest =>
    if x = 'x' ∨ x = 'X' then radixLit 16 rest
    else if x = 'o' ∨ x = 'O' then radixLit 8 rest
    else if x = 'b' ∨ x = 'B' then radixLit 2 rest
    else signedDecimal ('0' :: x :: rest)
  | _ => signedDecimal cs

/-! ## Command data model (src/terminal/types/commands.ts as consumed) -/

/-- The two parameter type tags (`'string' | 'number'`). -/
inductive PType where
  | pstring
  | pnumber
deriving DecidableEq, Repr

/-- A command parameter specification. `type` is optional in the TS
interface; `defaultValue` is optional documentation-only metadata. -/
structure ParameterSpec where
  name : String
  description : String
  required : Bool
  type : Option PType
  defaultValue : Option String := none
deriving DecidableEq, Repr

/-- A JS value as handled by the dispatch code: `undefined`, a string, a
number, or an array of string tokens (the shape the remaining-token list
would have). -/
inductive JSValue where
  | undefined
  | str (s : String)
  | num (n : JSNum)
  | arr (elems : List String)
deriving DecidableEq, Repr

/-- JS `Array.isArray(v) ? v : []` (notes.ts line 37). -/
def JSValue.asArray : JSValue → List String
  | .arr l => l
  | _ => []

/-- JS truthiness test `!v` for the values a binder can produce. -/
def JSValue.falsy : JSValue → Bool
  | .undefined => true
  | .str s => s = ""
  | .num (.val q) => q = 0
  | .num _ => false
  | .arr _ => false

/-- JS string interpolation of such a value. Finite non-integral numbers are
rendered as rationals (JS float formatting is not modelled; no claim
depends on it). -/
def JSNum.render : JSNum → String
  | .val q => if q.den = 1 then toString q.num else toString q
  | .inf => "Infinity"
  | .negInf => "-Infinity"

/-- JS string interpolation of a `JSValue`. -/
def JSValue.render : JSValue → String
  | .undefined => "undefined"
  | .str s => s
  | .num n => n.render
  | .arr l => String.intercalate "," l

/-! ## The parameter-binding loop (notes.ts lines 92–120) -/

/-- JS truthiness of the token picked by `parsedArgs[tokenIndex++]`:
`undefined` (past the end) and the empty string are falsy. -/
def falsyTok : Option String → Bool
  | none => true
  | some s => s = ""

/-- `tokens.join(' ')`. -/
def joinSpaces (l : List String) : String := String.intercalate " " l

/-- The error thrown at notes.ts line 105. -/
def missingParamMsg (n : String) : String := "Missing required parameter: " ++ n

/-- The error thrown at notes.ts line 113. -/
def numberParamMsg (n : String) : String := "Parameter '" ++ n ++ "' must be a number."

/-- The value stored for a non-slurping parameter before type conversion:
the consumed token, or `undefined` past the end of the tokens. -/
def tokVal : Option String → JSValue
  | none => .undefined
  | some s => .str s

/-- The argument-binding loop of the notes category handler (notes.ts lines
92–120), written as a recursion over the parameter list; `toks` is
`parsedArgs.slice(tokenIndex)`. A thrown `Error` is the `.error` case with
its message. If a spec is last, required and string-or-untyped it consumes
all remaining tokens joined with spaces; otherwise it consumes one token
(missing required token throws), and a number-typed spec converts its
consumed token with `Number`, throwing on `NaN`. -/
def bindParams : List ParameterSpec → List String → Except String (List (String × JSValue))
  | [], _ => .ok []
  | p :: rest, toks =>
    if rest = [] ∧ p.required ∧ (p.type = some .pstring ∨ p.type = none) then
      .ok [(p.name, .str (joinSpaces toks))]
    else
      let value? := toks.head?
      if falsyTok value? ∧ p.required then .error (missingParamMsg p.name)
      else
        match p.type, value? with
        | some .pnumber, some t =>
          match jsNumber t with
          | none => .error (numberParamMsg p.name)
          | some nv => (bindParams rest toks.tail).map (fun r => (p.name, .num nv) :: r)
        | _, _ => (bindParams rest toks.tail).map (fun r => (p.name, tokVal value?) :: r)

/-! ## The notes category command (notes.ts lines 14–131) -/

/-- A dispatched command result (`\x7b output: string \x7d`). -/
structure CommandResult where
  output : String
deriving DecidableEq, Repr

/-- The settled outcome of a JS async handler call: it resolves to a value
(the TS type promises a result object, but a handler may resolve to
`undefined`, hence the `Option`) or rejects; `thrown err` carries the
string JS interpolation would render for the thrown value. -/
inductive HandlerOutcome where
  | ok (res : Option CommandResult)
  | thrown (err : String)

/-- A registered command (src/terminal/types/commands.ts as consumed):
name, description, ordered parameter specs and one handler. -/
structure Command where
  name : String
  description : String
  parameters : List ParameterSpec
  handler : List (String × JSValue) → HandlerOutcome

/-- JS property access `args[n]` on a bound argument record. -/
def getArg (r : List (String × JSValue)) (n : String) : JSValue :=
  ((r.find? (fun kv => kv.1 = n)).map Prod.snd).getD .undefined

/-- Help signature element: `<name>` if required else `[name]`
(notes.ts lines 14–16, `formatParamString`). -/
def formatParamString (p : ParameterSpec) : String :=
  if p.required then "<" ++ p.name ++ ">" else "[" ++ p.name ++ "]"

/-- JS `String.prototype.padEnd(n)` with spaces. -/
def padEnd (s : String) (n : ℕ) : String :=
  s ++ String.mk (List.replicate (n - s.length) ' ')

/-- The TS type-tag literal of a parameter type. -/
def PType.tag : PType → String
  | .pstring => "string"
  | .pnumber => "number"

/-- One parameter's line of the detailed help (notes.ts lines 61–64):
name, type tag, description, `(Required)`/`(Optional)` flag and any truthy
declared default. -/
def paramHelpLine (param : ParameterSpec) : String :=
  let required := if param.required then "(Required)" else "(Optional)"
  let defaultVal :=
    match param.defaultValue with
    | some d => if d = "" then "" else " [default: " ++ d ++ "]"
    | none => ""
  let typeInfo :=
    match param.type with
    | some t => " <" ++ t.tag ++ ">"
    | none => ""
  "  " ++ param.name ++ typeInfo ++ ": " ++ param.description ++ " "
    ++ required ++ defaultVal

/-- The detailed help text for one nested command (notes.ts lines 48–67):
usage line with the parameter signature, then one line per parameter. -/
def detailedHelp (cmd : Command) : String :=
  let paramString := joinSpaces (cmd.parameters.map formatParamString)
  let helpLines :=
    ["Command: notes " ++ cmd.name,
     "Description: " ++ cmd.description,
     "",
     "Usage:",
     "  notes " ++ cmd.name ++ " " ++ paramString,
     ""]
  let paramLines :=
    if cmd.parameters ≠ [] then
      "Parameters:" :: cmd.parameters.map paramHelpLine
    else []
  String.intercalate "\n" (helpLines ++ paramLines)

/-- The general help listing (notes.ts lines 71–83): every nested command's
name, parameter signature and description, padded for alignment. -/
def generalHelp (registry : List Command) : String :=
  let lines :=
    ["Available \"notes\" sub-commands:",
     "(Use \"notes help <command>\" for detailed parameter info)",
     ""] ++
    registry.map (fun sc =>
      let paramString := joinSpaces (sc.parameters.map formatParamString)
      padEnd (sc.name ++ " " ++ paramString) 30 ++ " - " ++ sc.description)
  String.intercalate "\n" lines

/-- The unknown-sub-command message of the help branch (notes.ts line 45). -/
def unknownSubMsgHelp (cmdName : String) : String :=
  "Unknown notes sub-command: " ++ cmdName ++ ". Try \"notes help\" to see available commands."

/-- The unknown-sub-command message of the dispatch branch (notes.ts line 88). -/
def unknownSubMsg (subcommand : JSValue) : String :=
  "Unknown notes sub-command: " ++ subcommand.render ++ ". Try \"notes help\"."

/-- The nested-handler fault-boundary message (notes.ts line 128). -/
def errSubMsg (subcommand : JSValue) (err : String) : String :=
  "❌ Error executing subcommand \"" ++ subcommand.render ++ "\": " ++ err

/-- The notes category handler (notes.ts lines 35–131), abstracted over the
imported nested registry constant `notesSubCommands`. `subcommand` and
`argsVal` are the two fields of the bound argument record the handler
receives. A `.error` result is an error thrown out of the handler (the
binding loop's throws at lines 105 and 113 are outside the try of line
123); every other path returns a result. -/
def categoryHandler (registry : List Command) (subcommand argsVal : JSValue) :
    Except String CommandResult :=
  let parsedArgs := argsVal.asArray
  if subcommand = .str "help" ∧ parsedArgs.length > 0 then
    let cmdName := parsedArgs.headD ""
    match registry.find? (fun sc => sc.name = cmdName) with
    | none => .ok ⟨unknownSubMsgHelp cmdName⟩
    | some cmd => .ok ⟨detailedHelp cmd⟩
  else if subcommand.falsy ∨ subcommand = .str "help" then
    .ok ⟨generalHelp registry⟩
  else
    match registry.find? (fun sc => .str sc.name = subcommand) with
    | none => .ok ⟨unknownSubMsg subcommand⟩
    | some cmd =>
      match bindParams cmd.parameters parsedArgs with
      | .error e => .error e
      | .ok paramValues =>
        match cmd.handler paramValues with
        | .ok res => .ok (res.getD ⟨"Command completed successfully."⟩)
        | .thrown err => .ok ⟨errSubMsg subcommand err⟩

/-! ## The concrete nested registry (subCommandsRegistry.ts and
commands/createNote.ts, editNote.ts, deleteNote.ts, listNotes.ts,
searchNote.ts)

The nested handlers call the supabase-backed functions of
`noteQueries.ts`; those functions catch every exception internally
(returning `null`, `false` or `[]`), so each handler's own catch branch is
unreachable and the handlers never throw. Their store behavior is an
environment of oracles. -/

/-- Resolved behaviors of the `noteQueries.ts` store operations (external
I/O). Arguments are the JS values the handlers pass. -/
structure NotesEnv where
  createNote : JSValue → Option ℕ
  editNote : JSValue → JSValue → Bool
  deleteNote : JSValue → Bool
  listNotes : List (ℕ × String)
  searchNotes : JSValue → List (ℕ × String)

/-- `notes create-note` (createNote.ts). -/
def createNoteCommand (env : NotesEnv) : Command where
  name := "create-note"
  description := "Create a new note. Usage: notes create-note \"<note content>\""
  parameters := [{ name := "content", description := "Note content (wrap in quotes)",
                   required := true, type := some .pstring }]
  handler := fun args =>
    match env.createNote (getArg args "content") with
    | some noteId => .ok (some ⟨"✅ Note created with ID: " ++ toString noteId⟩)
    | none => .ok (some ⟨"❌ Failed to create note."⟩)

/-- `notes edit-note` (editNote.ts). -/
def editNoteCommand (env : NotesEnv) : Command where
  name := "edit-note"
  description := "Edit an existing note. Usage: notes edit-note <note-id> \"<new content>\""
  parameters := [{ name := "noteId", description := "ID of the note to edit",
                   required := true, type := some .pnumber },
                 { name := "content", description := "New content (wrap in quotes)",
                   required := true, type := some .pstring }]
  handler := fun args =>
    if env.editNote (getArg args "noteId") (getArg args "content") then
      .ok (some ⟨"✅ Successfully updated note #" ++ (getArg args "noteId").render⟩)
    else
      .ok (some ⟨"❌ Failed to edit note."⟩)

/-- `notes delete-note` (deleteNote.ts). -/
def deleteNoteCommand (env : NotesEnv) : Command where
  name := "delete-note"
  description := "Delete a note by ID. Usage: notes delete-note <note-id>"
  parameters := [{ name := "noteId", description := "ID of the note to delete",
                   required := true, type := some .pnumber }]
  handler := fun args =>
    if env.deleteNote (getArg args "noteId") then
      .ok (some ⟨"✅ Note #" ++ (getArg args "noteId").render ++ " deleted successfully."⟩)
    else
      .ok (some ⟨"❌ Failed to delete note."⟩)

/-- `notes list-notes` (listNotes.ts). -/
def listNotesCommand (env : NotesEnv) : Command where
  name := "list-notes"
  description := "List all notes (up to 50)"
  parameters := []
  handler := fun _ =>
    match env.listNotes with
    | [] => .ok (some ⟨"No notes found."⟩)
    | l => .ok (some ⟨"Here are your notes:\n" ++ String.intercalate "\n"
        (l.map fun n => "ID: " ++ toString n.1 ++ " | Content: \"" ++ n.2 ++ "\"")⟩)

/-- `notes search-note` (searchNote.ts). -/
def searchNoteCommand (env : NotesEnv) : Command where
  name := "search-note"
  description := "Search notes semantically. Usage: notes search-note \"<query>\""
  parameters := [{ name := "query", description := "Search query (wrap in quotes)",
                   required := true, type := some .pstring }]
  handler := fun args =>
    match env.searchNotes (getArg args "query") with
    | [] => .ok (some ⟨"No matching notes found for \"" ++ (getArg args "query").render ++ "\"."⟩)
    | l => .ok (some ⟨"Top matches for \"" ++ (getArg args "query").render ++ "\":\n"
        ++ String.intercalate "\n"
          (l.map fun n => "ID: " ++ toString n.1 ++ " | Content: \"" ++ n.2 ++ "\"")⟩)

/-- The nested registry (subCommandsRegistry.ts). -/
def notesSubCommands (env : NotesEnv) : List Command :=
  [createNoteCommand env, editNoteCommand env, deleteNoteCommand env,
   listNotesCommand env, searchNoteCommand env]

/-- The `notes` category handler applied to its own registry
(notes.ts, the exported `notes` command's handler). -/
def notesHandler (env : NotesEnv) (subcommand argsVal : JSValue) :
    Except String CommandResult :=
  categoryHandler (notesSubCommands env) subcommand argsVal

/-- A concrete environment in which every store operation fails benignly;
used to instantiate witnesses. -/
def defaultNotesEnv : NotesEnv where
  createNote := fun _ => none
  editNote := fun _ _ => false
  deleteNote := fun _ => false
  listNotes := []
  searchNotes := fun _ => []

/-! ## The agent action loop (terminalCore.ts lines 100–267)

`runLoop` is modelled as a trace-producing function over a `LoopWorld` of
resolved external behaviors: what each `agent.run()` returns, how each
dispatched command execution turns out, and whether each persistence call
fails. The trace records every externally visible call and emitted event in
order, and whether `runLoop` itself resolved or rejected.

Persistence collaborators, by their sources:
* `createTerminalEntry` and `updateTerminalResponse`
  (terminalEntries.ts) catch every failure, log it and return `null` —
  they never throw;
* `updateTerminalStatus` (terminalEntries.ts) likewise never throws;
* `storeTerminalMessage` and `clearShortTermHistory` (terminalHistory.ts)
  log a failure and then RETHROW it. -/

/-- One entry of `agentResult.functionCalls`. `functionArgs` is modelled as
the already-parsed object with its three optional fields (the JSON-string
form of `functionArgs`, which `parseFunctionCall` would `JSON.parse`, is
not modelled; no claim exercises it). -/
structure FunctionCall where
  functionName : String
  thought : Option String
  plan : Option String
  command : Option String

/-- What one `agent.run()` call resolves to. -/
structure AgentRunResult where
  success : Bool
  functionCalls : List FunctionCall

/-- The validated proposal fields. -/
structure ParsedArgs where
  thought : String
  plan : String
  command : String
deriving DecidableEq, Repr

/-- JS truthiness of an optional string field (`!args[field]`). -/
def falsyField : Option String → Bool
  | none => true
  | some s => s = ""

/-- `TerminalCore.parseFunctionCall` (terminalCore.ts lines 104–128) on an
object-form `functionArgs`: checks the function name, then each of
`thought`, `plan`, `command` for truthiness in order; a thrown `Error` is
the `.error` case with its message. -/
def parseFunctionCall (fc : FunctionCall) : Except String ParsedArgs :=
  if fc.functionName ≠ "execute_terminal_command" then
    .error ("Invalid function name: " ++ fc.functionName)
  else if falsyField fc.thought then .error "Missing required field: thought"
  else if falsyField fc.plan then .error "Missing required field: plan"
  else if falsyField fc.command then .error "Missing required field: command"
  else .ok ⟨fc.thought.getD "", fc.plan.getD "", fc.command.getD ""⟩

/-- How one dispatched command execution turns out: the handler produced
output, or the handler threw (rendered message `msg`). -/
inductive ExecOutcome where
  | success (output : String)
  | handlerError (msg : String)
deriving DecidableEq, Repr

/-- Modelled from the spec: `executeCommand`
(src/terminal/executeCommand.ts, the Command Executor, is not among the
repository's files; only its import and call sites are). Spec section 4.3:
"Any thrown error or failed operation inside the handler is caught and
converted into a CommandResult carrying a human-readable failure message;
the Executor is a total function — it never raises past its own
boundary." So the Executor maps a successful execution to its output and a
handler error to a non-empty human-readable failure message. -/
def executeCommandModel : ExecOutcome → String
  | .success out => out
  | .handlerError msg => "Error: " ++ msg

/-- Resolved external behaviors for a whole session, indexed by the value
of `actionCount` at the start of the cycle that makes the call. For the
two store calls that can throw, `some m` means the call fails and the
rethrown error has message / rendering `m`; `none` means it succeeds. -/
structure LoopWorld where
  agentRun : ℕ → AgentRunResult
  exec : ℕ → ExecOutcome
  timestamp : ℕ → String
  createEntry : ℕ → Option ℕ
  storeAssistantFail : ℕ → Option String
  storeUserFail : ℕ → Option String
  clearFail : Option String

/-- Externally visible calls and events of one `runLoop` invocation, in
program order. -/
inductive LoopEvent where
  | statusCall (active : Bool)
  | agentRunCall (n : ℕ)
  | createEntryCall (thought plan command : String)
  | updateResponseCall (entryId : ℕ) (response : String)
  | storeMessageCall (role content : String)
  | addUserMessage (content : String)
  | iterationEvent (assistantMessage userMessage : String)
  | maxActionsEvent
  | clearCall
deriving DecidableEq, Repr

/-- The body of the inner while loop for a cycle with `actionCount = n`,
after the `agent.run()` call (terminalCore.ts lines 189–249): the events
it adds after `agentRunCall n`, and whether the loop goes on to the next
cycle (`false` = one of the three `break`s ran). -/
def runCycleRest (w : LoopWorld) (n : ℕ) : List LoopEvent × Bool :=
  let ar := w.agentRun n
  if ar.success = false then ([], false)
  else
    match ar.functionCalls with
    | [] => ([], false)
    | fc :: _ =>
      match parseFunctionCall fc with
      | .error e => ([.addUserMessage ("Error executing command: " ++ e)], false)
      | .ok pa =>
        let entryId := w.createEntry n
        let assistantMessage := "[THOUGHT]\n " ++ pa.thought ++ "\n\n[PLAN]\n "
          ++ pa.plan ++ "\n\n[COMMAND]\n " ++ pa.command
        let commandResult := executeCommandModel (w.exec n)
        let userMessage := "[" ++ w.timestamp n ++ " - TERMINAL LOG]\n\n" ++ commandResult
        let ev1 := [LoopEvent.createEntryCall pa.thought pa.plan pa.command] ++
          (match entryId with
           | some id => [LoopEvent.updateResponseCall id userMessage]
           | none => []) ++
          [LoopEvent.storeMessageCall "assistant" assistantMessage]
        match w.storeAssistantFail n with
        | some m => (ev1 ++ [.addUserMessage ("Error executing command: " ++ m)], false)
        | none =>
          let ev2 := ev1 ++ [LoopEvent.storeMessageCall "user" userMessage]
          match w.storeUserFail n with
          | some m => (ev2 ++ [.addUserMessage ("Error executing command: " ++ m)], false)
          | none =>
            (ev2 ++ [.addUserMessage userMessage,
                     .iterationEvent assistantMessage userMessage], true)

/-- One full cycle: the `agent.run()` call then the rest of the body. -/
def runCycle (w : LoopWorld) (n : ℕ) : List LoopEvent × Bool :=
  let (evs, cont) := runCycleRest w n
  (LoopEvent.agentRunCall n :: evs, cont)

/-- The inner `while (this.actionCount < this.maxActions)` loop
(terminalCore.ts lines 186–250), with `n` the current `actionCount`
(incremented exactly when the body runs to completion; every `break` ends
the loop, so a cycle that breaks is the last). `fuel` bounds the number of
iterations; `maxActions + 1` suffices from `n = 0`. -/
def runWhile (w : LoopWorld) (maxActions : ℕ) : ℕ → ℕ → List LoopEvent
  | 0, _ => []
  | fuel + 1, n =>
    if n < maxActions then
      let (evs, cont) := runCycle w n
      if cont then evs ++ runWhile w maxActions fuel (n + 1) else evs
    else []

/-- `TerminalCore.runLoop` (terminalCore.ts lines 133–267) from the point
the session starts: mark the terminal active, run the bounded cycle loop
from `actionCount = 0`, emit the max-actions event, clear short-term
history, mark the terminal inactive, and return (the outer `while (true)`
breaks after one pass). `clearShortTermHistory` rethrows its failures and
is awaited outside any try, so its failure rejects `runLoop` and skips the
final status update. -/
def runLoop (w : LoopWorld) (maxActions : ℕ) : List LoopEvent × Except String Unit :=
  let evs := [LoopEvent.statusCall true] ++ runWhile w maxActions (maxActions + 1) 0
    ++ [LoopEvent.maxActionsEvent, LoopEvent.clearCall]
  match w.clearFail with
  | some m => (evs, .error m)
  | none => (evs ++ [LoopEvent.statusCall false], .ok ())

/-- Event classifiers used to count calls in a trace. -/
def LoopEvent.isAgentRun : LoopEvent → Bool
  | .agentRunCall _ => true
  | _ => false

def LoopEvent.isCreateEntry : LoopEvent → Bool
  | .createEntryCall _ _ _ => true
  | _ => false

def LoopEvent.isIteration : LoopEvent → Bool
  | .iterationEvent _ _ => true
  | _ => false

def LoopEvent.isStoreMessage : LoopEvent → Bool
  | .storeMessageCall _ _ => true
  | _ => false

/-- A cycle in which the inference collaborator succeeds (a first function
call with the right name and truthy thought, plan and command), the
dispatched command executes without a handler throw, and the two
short-term-history writes succeed. -/
def goodCycle (w : LoopWorld) (n : ℕ) : Prop :=
  (w.agentRun n).success = true ∧
  (∃ fc l, (w.agentRun n).functionCalls = fc :: l ∧
    fc.functionName = "execute_terminal_command" ∧
    (∃ t, fc.thought = some t ∧ t ≠ "") ∧
    (∃ p, fc.plan = some p ∧ p ≠ "") ∧
    (∃ c, fc.command = some c ∧ c ≠ "")) ∧
  (∃ out, w.exec n = .success out) ∧
  w.storeAssistantFail n = none ∧
  w.storeUserFail n = none

/-! ## Auxiliary definitions for stating and witnessing the claims -/

/-- `t` occurs as a contiguous substring of `s`. -/
def strContains (s t : String) : Prop := t.data <:+: s.data

instance (s t : String) : Decidable (strContains s t) := by
  unfold strContains; infer_instance

/-- A nested command whose handler always rejects; used to witness the
nested fault boundary. -/
def throwingCommand : Command where
  name := "boom"
  description := "a command whose handler always rejects"
  parameters := []
  handler := fun _ => .thrown "Error: kaboom"

/-- A world in which every cycle goes well: the collaborator always
returns a valid proposal, every command executes successfully, and every
store operation succeeds. -/
def benignWorld : LoopWorld where
  agentRun := fun _ =>
    ⟨true, [⟨"execute_terminal_command", some "think", some "step by step", some "notes help"⟩]⟩
  exec := fun _ => .success "ok"
  timestamp := fun _ => "2025-01-01 00:00:00"
  createEntry := fun n => some n
  storeAssistantFail := fun _ => none
  storeUserFail := fun _ => none
  clearFail := none

/-- `benignWorld` except that the very first `storeTerminalMessage` call
fails (and, per terminalHistory.ts, rethrows). -/
def storeFailWorld : LoopWorld :=
  { benignWorld with storeAssistantFail := fun _ => some "db write failed" }

/-- `benignWorld` except that `clearShortTermHistory` fails (and, per
terminalHistory.ts, rethrows). -/
def clearFailWorld : LoopWorld :=
  { benignWorld with clearFail := some "delete failed" }

/-- `benignWorld` except that every `createTerminalEntry` call fails
(terminalEntries.ts catches the failure and returns `null`). -/
def entryFailWorld : LoopWorld :=
  { benignWorld with createEntry := fun _ => none }

/-- A world whose first cycle's dispatched command's handler throws. -/
def handlerThrowWorld : LoopWorld :=
  { benignWorld with exec := fun _ => .handlerError "handler exploded" }

/-- Shared hypothesis bundle: in cycle `n` the collaborator succeeded and
the first function call is a valid proposal (right name, truthy thought,
plan and command). -/
def validProposal (w : LoopWorld) (n : ℕ) : Prop :=
  (w.agentRun n).success = true ∧
  ∃ fc l, (w.agentRun n).functionCalls = fc :: l ∧
    fc.functionName = "execute_terminal_command" ∧
    (∃ t, fc.thought = some t ∧ t ≠ "") ∧
    (∃ p, fc.plan = some p ∧ p ≠ "") ∧
    (∃ c, fc.command = some c ∧ c ≠ "")

/-! ## Helper lemmas -/

set_option maxRecDepth 200000

/-- Helper for C6: the outcome shape of one continue-step of the binding
loop, given the shape of the recursive call's outcome. -/
theorem bindStep_shape (p : ParameterSpec) (rest : List ParameterSpec)
    (toks : List String) (X : JSValue)
    (ih : (∃ r, bindParams rest toks = .ok r ∧ r.map Prod.fst = rest.map ParameterSpec.name) ∨
      (∃ q, q ∈ rest ∧ (bindParams rest toks = .error (missingParamMsg q.name) ∨
        bindParams rest toks = .error (numberParamMsg q.name)))) :
    (∃ r, (bindParams rest toks).map (fun r => (p.name, X) :: r) = .ok r ∧
       r.map Prod.fst = p.name :: rest.map ParameterSpec.name) ∨
    (∃ q, q ∈ p :: rest ∧
      ((bindParams rest toks).map (fun r => (p.name, X) :: r) = .error (missingParamMsg q.name) ∨
       (bindParams rest toks).map (fun r => (p.name, X) :: r) = .error (numberParamMsg q.name))) := by
  rcases ih with ⟨r, hr, hk⟩ | ⟨q, hq, herr⟩
  · left
    exact ⟨(p.name, X) :: r, by rw [hr]; rfl, by simp [hk]⟩
  · right
    refine ⟨q, List.mem_cons_of_mem _ hq, ?_⟩
    rcases herr with h | h
    · left; rw [h]; rfl
    · right; rw [h]; rfl

/-- Helper for C1, C2 and C3: what one cycle body does after the
`agent.run()` call when the proposal is valid and neither short-term
history write fails. -/
theorem runCycleRest_no_store_fail (w : LoopWorld) (n : ℕ)
    (h : validProposal w n)
    (hsa : w.storeAssistantFail n = none) (hsu : w.storeUserFail n = none) :
    (runCycleRest w n).2 = true ∧
    (runCycleRest w n).1.countP LoopEvent.isCreateEntry = 1 ∧
    (runCycleRest w n).1.countP LoopEvent.isIteration = 1 ∧
    (runCycleRest w n).1.countP LoopEvent.isAgentRun = 0 ∧
    (∃ a u, LoopEvent.iterationEvent a u ∈ (runCycleRest w n).1 ∧
      u = "[" ++ w.timestamp n ++ " - TERMINAL LOG]\n\n" ++ executeCommandModel (w.exec n)) := by
  obtain ⟨hs, fc, l, hfc, hname, ⟨t, ht, ht'⟩, ⟨p, hp, hp'⟩, ⟨c, hc, hc'⟩⟩ := h
  have hpa : parseFunctionCall fc = .ok ⟨t, p, c⟩ := by
    rw [parseFunctionCall, if_neg (by rw [hname]; exact fun h => h rfl)]
    rw [ht, hp, hc]
    simp [falsyField, ht', hp', hc']
  rw [runCycleRest, hs]
  simp only [Bool.true_eq_false, if_false, hfc, hpa]
  rw [hsa, hsu]
  dsimp only
  cases hce : w.createEntry n <;>
    simp [hce, List.countP_cons, List.countP_append, LoopEvent.isCreateEntry,
      LoopEvent.isIteration, LoopEvent.isAgentRun, List.countP_nil]

/-- Every cycle's event list starts with its `agent.run()` call. -/
theorem runCycle_events (w : LoopWorld) (n : ℕ) :
    (runCycle w n).1 = LoopEvent.agentRunCall n :: (runCycleRest w n).1 ∧
    (runCycle w n).2 = (runCycleRest w n).2 := ⟨rfl, rfl⟩

/-- The while loop runs nothing once the action budget is spent. -/
theorem runWhile_stop (w : LoopWorld) (maxA fuel n : ℕ) (hn : ¬ n < maxA) :
    runWhile w maxA fuel n = [] := by
  cases fuel <;> simp [runWhile, hn]

/-- One unfolding of the while loop under budget. -/
theorem runWhile_step (w : LoopWorld) (maxA fuel n : ℕ) (hn : n < maxA) :
    runWhile w maxA (fuel + 1) n =
      if (runCycle w n).2 then (runCycle w n).1 ++ runWhile w maxA fuel (n + 1)
      else (runCycle w n).1 := by
  rw [runWhile, if_pos hn]

/-- A good cycle has a valid proposal and both history writes succeed. -/
theorem goodCycle_validProposal (w : LoopWorld) (n : ℕ) (h : goodCycle w n) :
    validProposal w n ∧ w.storeAssistantFail n = none ∧ w.storeUserFail n = none :=
  ⟨⟨h.1, h.2.1⟩, h.2.2.2.1, h.2.2.2.2⟩

/-! ## The claims -/

/-- C1 counterexample: the three-cycle property does not follow from the
collaborator's success alone. In `storeFailWorld` the inference
collaborator succeeds on every cycle — `agent.run` always returns success
with the one valid function call shown (its oracles are constant in the
cycle index), and every command executes without throwing — yet because
the first `storeTerminalMessage` write fails (and rethrows, per
terminalHistory.ts), `runLoop` with max-actions 3 performs only 1 cycle,
calls `createTerminalEntry` only once and emits no iteration event. -/
theorem three_cycles_counterexample :
    (storeFailWorld.agentRun 0).success = true ∧
    (storeFailWorld.agentRun 0).functionCalls.map parseFunctionCall =
      [.ok ⟨"think", "step by step", "notes help"⟩] ∧
    storeFailWorld.exec 0 = .success "ok" ∧
    (runLoop storeFailWorld 3).1.countP LoopEvent.isAgentRun = 1 ∧
    (runLoop storeFailWorld 3).1.countP LoopEvent.isCreateEntry = 1 ∧
    (runLoop storeFailWorld 3).1.countP LoopEvent.isIteration = 0 := by decide

/-- C1 amended: with max-actions 3, an inference collaborator that
succeeds on every cycle (valid non-empty proposal, command executes
without throwing) and every per-cycle short-term-history write
(`storeTerminalMessage`) succeeding, `runLoop` performs exactly 3 cycles
(3 `agent.run` calls), calls `createTerminalEntry` exactly 3 times, emits
3 iteration events, and after the while loop exits emits the max-actions
event and calls `clearShortTermHistory`, with all 3 iterations before
them. -/
theorem loop_three_cycles (w : LoopWorld) (h : ∀ n, goodCycle w n) :
    (runLoop w 3).1.countP LoopEvent.isAgentRun = 3 ∧
    (runLoop w 3).1.countP LoopEvent.isCreateEntry = 3 ∧
    (runLoop w 3).1.countP LoopEvent.isIteration = 3 ∧
    (∃ pre post,
      (runLoop w 3).1 = pre ++ [LoopEvent.maxActionsEvent, LoopEvent.clearCall] ++ post ∧
      pre.countP LoopEvent.isIteration = 3 ∧ post.countP LoopEvent.isIteration = 0) := by
  have g : ∀ n, (runCycleRest w n).2 = true ∧
      (runCycleRest w n).1.countP LoopEvent.isCreateEntry = 1 ∧
      (runCycleRest w n).1.countP LoopEvent.isIteration = 1 ∧
      (runCycleRest w n).1.countP LoopEvent.isAgentRun = 0 := by
    intro n
    obtain ⟨hv, hsa, hsu⟩ := goodCycle_validProposal w n (h n)
    obtain ⟨h1, h2, h3, h4, -⟩ := runCycleRest_no_store_fail w n hv hsa hsu
    exact ⟨h1, h2, h3, h4⟩
  have hw : runWhile w 3 4 0 =
      (runCycle w 0).1 ++ ((runCycle w 1).1 ++ ((runCycle w 2).1 ++ runWhile w 3 1 3)) := by
    rw [runWhile_step w 3 3 0 (by norm_num), if_pos ((runCycle_events w 0).2.trans (g 0).1),
        runWhile_step w 3 2 1 (by norm_num), if_pos ((runCycle_events w 1).2.trans (g 1).1),
        runWhile_step w 3 1 2 (by norm_num), if_pos ((runCycle_events w 2).2.trans (g 2).1)]
  have hw3 : runWhile w 3 1 3 = [] := runWhile_stop w 3 1 3 (by norm_num)
  have hcyc : ∀ n, (runCycle w n).1.countP LoopEvent.isAgentRun = 1 ∧
      (runCycle w n).1.countP LoopEvent.isCreateEntry = 1 ∧
      (runCycle w n).1.countP LoopEvent.isIteration = 1 := by
    intro n
    rw [(runCycle_events w n).1]
    simp [List.countP_cons, LoopEvent.isAgentRun, LoopEvent.isCreateEntry,
      LoopEvent.isIteration, (g n).2.1, (g n).2.2.1, (g n).2.2.2]
  have hpre : ([LoopEvent.statusCall true] ++ runWhile w 3 4 0).countP LoopEvent.isIteration = 3 := by
    rw [hw, hw3]
    simp [List.countP_append, List.countP_cons, LoopEvent.isIteration,
      (hcyc 0).2.2, (hcyc 1).2.2, (hcyc 2).2.2]
  refine ⟨?_, ?_, ?_, ?_⟩
  · rw [runLoop]
    cases w.clearFail <;>
      simp [hw, hw3, List.countP_append, List.countP_cons, LoopEvent.isAgentRun,
        (hcyc 0).1, (hcyc 1).1, (hcyc 2).1]
  · rw [runLoop]
    cases w.clearFail <;>
      simp [hw, hw3, List.countP_append, List.countP_cons, LoopEvent.isCreateEntry,
        (hcyc 0).2.1, (hcyc 1).2.1, (hcyc 2).2.1]
  · rw [runLoop]
    cases w.clearFail <;>
      simp [hw, hw3, List.countP_append, List.countP_cons, LoopEvent.isIteration,
        (hcyc 0).2.2, (hcyc 1).2.2, (hcyc 2).2.2]
  · rw [runLoop]
    cases w.clearFail with
    | some m =>
      exact ⟨[LoopEvent.statusCall true] ++ runWhile w 3 4 0, [], by simp, hpre, rfl⟩
    | none =>
      exact ⟨[LoopEvent.statusCall true] ++ runWhile w 3 4 0, [LoopEvent.statusCall false],
        by simp, hpre, by simp [List.countP_cons, LoopEvent.isIteration]⟩

/-- C1 witness: the three-cycle count at a concrete always-succeeding
world. -/
theorem loop_three_cycles_witness :
    (runLoop benignWorld 3).1.countP LoopEvent.isAgentRun = 3 ∧
    (runLoop benignWorld 3).1.countP LoopEvent.isCreateEntry = 3 ∧
    (runLoop benignWorld 3).1.countP LoopEvent.isIteration = 3 :=
  have h := loop_three_cycles benignWorld (fun _ =>
    ⟨rfl, ⟨⟨"execute_terminal_command", some "think", some "step by step", some "notes help"⟩, [],
      rfl, rfl, ⟨"think", rfl, by decide⟩, ⟨"step by step", rfl, by decide⟩,
      ⟨"notes help", rfl, by decide⟩⟩, ⟨"ok", rfl⟩, rfl, rfl⟩)
  ⟨h.1, h.2.1, h.2.2.1⟩

/-- C2: in a cycle whose dispatched command's handler throws (the proposal
being valid and the history writes succeeding), the Executor's result is
the non-empty failure message, that message is fed back in the cycle's
iteration event, and the loop continues: the cycle ends with
continue = true, and whenever the budget allows another cycle the while
loop makes the next `agent.run()` call. -/
theorem handler_error_cycle (w : LoopWorld) (n : ℕ) (msg : String)
    (hv : validProposal w n)
    (hexec : w.exec n = .handlerError msg)
    (hsa : w.storeAssistantFail n = none) (hsu : w.storeUserFail n = none) :
    executeCommandModel (w.exec n) = "Error: " ++ msg ∧
    executeCommandModel (w.exec n) ≠ "" ∧
    (∃ a, LoopEvent.iterationEvent a
        ("[" ++ w.timestamp n ++ " - TERMINAL LOG]\n\n" ++ executeCommandModel (w.exec n))
        ∈ (runCycle w n).1) ∧
    (runCycle w n).2 = true ∧
    (∀ maxA fuel, n + 1 < maxA →
      LoopEvent.agentRunCall (n + 1) ∈ runWhile w maxA (fuel + 2) n) := by
  obtain ⟨hcont, -, -, -, a, u, hmem, hu⟩ := runCycleRest_no_store_fail w n hv hsa hsu
  have hcont' : (runCycle w n).2 = true := hcont
  refine ⟨by rw [hexec]; rfl, ?_, ⟨a, ?_⟩, hcont', ?_⟩
  · rw [hexec]
    intro h
    have := congrArg String.data h
    simp [String.data_append, executeCommandModel] at this
  · rw [(runCycle_events w n).1, ← hu]
    exact List.mem_cons_of_mem _ hmem
  · intro maxA fuel hlt
    rw [runWhile_step w maxA (fuel + 1) n (Nat.lt_of_succ_lt hlt), if_pos hcont']
    refine List.mem_append_right _ ?_
    rw [runWhile_step w maxA fuel (n + 1) hlt]
    have hhead : LoopEvent.agentRunCall (n + 1) ∈ (runCycle w (n + 1)).1 := by
      rw [(runCycle_events w (n + 1)).1]; exact List.mem_cons_self _ _
    by_cases hc : (runCycle w (n + 1)).2 = true
    · rw [if_pos hc]; exact List.mem_append_left _ hhead
    · rw [if_neg hc]; exact hhead

/-- C2 witness: a concrete cycle whose handler throws still continues, and
the next cycle's `agent.run()` happens. -/
theorem handler_error_cycle_witness :
    executeCommandModel (handlerThrowWorld.exec 0) = "Error: " ++ "handler exploded" ∧
    (runCycle handlerThrowWorld 0).2 = true ∧
    LoopEvent.agentRunCall 1 ∈ runWhile handlerThrowWorld 3 2 0 :=
  have h := handler_error_cycle handlerThrowWorld 0 "handler exploded"
    ⟨rfl, ⟨"execute_terminal_command", some "think", some "step by step", some "notes help"⟩, [],
      rfl, rfl, ⟨"think", rfl, by decide⟩, ⟨"step by step", rfl, by decide⟩,
      ⟨"notes help", rfl, by decide⟩⟩ rfl rfl rfl
  ⟨h.1, h.2.2.2.1, h.2.2.2.2 3 0 (by decide)⟩

/-- C3 counterexample: persistence-store failures are not uniformly
non-fatal. With an action budget of 2, a failing first
`storeTerminalMessage` ends the session after one cycle (one `agent.run`
call, no iteration event) with the rethrown error fed back; and a failing
`clearShortTermHistory` makes `runLoop` itself reject, the clear call
being the last external action (the inactive status write is skipped). -/
theorem store_failure_counterexample :
    (runLoop storeFailWorld 2).1.countP LoopEvent.isAgentRun = 1 ∧
    (runLoop storeFailWorld 2).1.countP LoopEvent.isStoreMessage = 1 ∧
    (runLoop storeFailWorld 2).1.countP LoopEvent.isIteration = 0 ∧
    LoopEvent.addUserMessage "Error executing command: db write failed"
      ∈ (runLoop storeFailWorld 2).1 ∧
    (runLoop clearFailWorld 1).2 = .error "delete failed" ∧
    LoopEvent.statusCall false ∉ (runLoop clearFailWorld 1).1 := by decide

/-- C3 amended: `createTerminalEntry` failures (like `updateTerminalResponse`
and `updateTerminalStatus` ones, which return null) are logged and
non-fatal — the cycle completes and the loop continues; but
`storeTerminalMessage` and `clearShortTermHistory` rethrow after logging:
a `storeTerminalMessage` failure breaks the cycle loop (the session ends
early with the error fed back), and a `clearShortTermHistory` failure
propagates out of `runLoop`, skipping the final status update. -/
theorem persistence_failures (w : LoopWorld) (n maxA : ℕ) (m : String) :
    (goodCycle w n → w.createEntry n = none →
      (runCycle w n).2 = true ∧ (runCycle w n).1.countP LoopEvent.isIteration = 1) ∧
    (validProposal w n → w.storeAssistantFail n = some m →
      (runCycle w n).2 = false ∧
      LoopEvent.addUserMessage ("Error executing command: " ++ m) ∈ (runCycle w n).1) ∧
    (w.clearFail = some m →
      (runLoop w maxA).2 = .error m ∧
      (runLoop w maxA).1.getLast? = some LoopEvent.clearCall) := by
  refine ⟨?_, ?_, ?_⟩
  · intro hg hce
    obtain ⟨hv, hsa, hsu⟩ := goodCycle_validProposal w n hg
    obtain ⟨h1, -, h3, -, -⟩ := runCycleRest_no_store_fail w n hv hsa hsu
    refine ⟨h1, ?_⟩
    rw [(runCycle_events w n).1]
    simp [List.countP_cons, LoopEvent.isIteration, h3]
  · intro hv hsa
    obtain ⟨hs, fc, l, hfc, hname, ⟨t, ht, ht'⟩, ⟨p, hp, hp'⟩, ⟨c, hc, hc'⟩⟩ := hv
    have hpa : parseFunctionCall fc = .ok ⟨t, p, c⟩ := by
      rw [parseFunctionCall, if_neg (by rw [hname]; exact fun h => h rfl)]
      rw [ht, hp, hc]
      simp [falsyField, ht', hp', hc']
    have hrest : (runCycleRest w n).2 = false ∧
        LoopEvent.addUserMessage ("Error executing command: " ++ m) ∈ (runCycleRest w n).1 := by
      rw [runCycleRest, hs]
      simp only [Bool.true_eq_false, if_false, hfc, hpa]
      rw [hsa]
      dsimp only
      cases hce : w.createEntry n <;> simp [hce]
    refine ⟨hrest.1, ?_⟩
    rw [(runCycle_events w n).1]
    exact List.mem_cons_of_mem _ hrest.2
  · intro hcf
    rw [runLoop, hcf]
    refine ⟨rfl, ?_⟩
    have hsplit : [LoopEvent.statusCall true] ++ runWhile w maxA (maxA + 1) 0 ++
        [LoopEvent.maxActionsEvent, LoopEvent.clearCall] =
      ([LoopEvent.statusCall true] ++ runWhile w maxA (maxA + 1) 0 ++ [LoopEvent.maxActionsEvent])
        ++ [LoopEvent.clearCall] := by simp
    rw [hsplit, List.getLast?_concat]

/-- C3 amended witness: the three behaviors at concrete worlds. -/
theorem persistence_failures_witness :
    ((runCycle entryFailWorld 0).2 = true ∧
      (runCycle entryFailWorld 0).1.countP LoopEvent.isIteration = 1) ∧
    ((runCycle storeFailWorld 0).2 = false ∧
      LoopEvent.addUserMessage ("Error executing command: " ++ "db write failed")
        ∈ (runCycle storeFailWorld 0).1) ∧
    ((runLoop clearFailWorld 1).2 = .error "delete failed" ∧
      (runLoop clearFailWorld 1).1.getLast? = some LoopEvent.clearCall) :=
  ⟨(persistence_failures entryFailWorld 0 1 "x").1
    ⟨rfl, ⟨⟨"execute_terminal_command", some "think", some "step by step", some "notes help"⟩, [],
      rfl, rfl, ⟨"think", rfl, by decide⟩, ⟨"step by step", rfl, by decide⟩,
      ⟨"notes help", rfl, by decide⟩⟩, ⟨"ok", rfl⟩, rfl, rfl⟩ rfl,
   (persistence_failures storeFailWorld 0 1 "db write failed").2.1
    ⟨rfl, ⟨"execute_terminal_command", some "think", some "step by step", some "notes help"⟩, [],
      rfl, rfl, ⟨"think", rfl, by decide⟩, ⟨"step by step", rfl, by decide⟩,
      ⟨"notes help", rfl, by decide⟩⟩ rfl,
   (persistence_failures clearFailWorld 0 1 "delete failed").2.2 rfl⟩

/-- C4: when the bound `args` value is not an array (a single string or
`undefined`, the shapes the optional-string binder can produce), the
remaining-token list is treated as empty; selecting a nested sub-command
whose first parameter is required and is not the trailing slurping string
parameter then throws a missing-required-parameter error out of the
handler, and `help` followed by such a value yields the general summary
instead of detailed help. -/
theorem nonarray_args (registry : List Command) (v : JSValue) (cmd : Command) (n : String)
    (p : ParameterSpec) (ps : List ParameterSpec)
    (hv : ∀ l, v ≠ .arr l)
    (hfind : registry.find? (fun sc => JSValue.str sc.name = JSValue.str n) = some cmd)
    (hhelp : n ≠ "help") (hne : n ≠ "")
    (hp : cmd.parameters = p :: ps) (hreq : p.required = true)
    (hnoslurp : ¬(ps = [] ∧ (p.type = some .pstring ∨ p.type = none))) :
    v.asArray = [] ∧
    categoryHandler registry (.str n) v = .error (missingParamMsg p.name) ∧
    categoryHandler registry (.str "help") v = .ok ⟨generalHelp registry⟩ := by
  have hva : v.asArray = [] := by
    cases v with
    | arr l => exact absurd rfl (hv l)
    | undefined => rfl
    | str s => rfl
    | num m => rfl
  have hbind : bindParams cmd.parameters v.asArray = .error (missingParamMsg p.name) := by
    rw [hva, hp, bindParams]
    rw [if_neg (fun h => hnoslurp ⟨h.1, h.2.2⟩)]
    dsimp only
    rw [if_pos ⟨rfl, hreq⟩]
  have h1 : ¬(JSValue.str n = JSValue.str "help" ∧ (JSValue.asArray v).length > 0) := by
    rintro ⟨h, -⟩; cases h; exact hhelp rfl
  have h2 : ¬((JSValue.str n).falsy = true ∨ JSValue.str n = JSValue.str "help") := by
    rintro (h | h)
    · simp [JSValue.falsy, hne] at h
    · cases h; exact hhelp rfl
  refine ⟨hva, ?_, ?_⟩
  · rw [categoryHandler, if_neg h1, if_neg h2, hfind]
    simp only [hbind]
  · rw [categoryHandler]
    rw [if_neg (by rw [hva]; rintro ⟨-, h⟩; exact absurd h (by decide))]
    rw [if_pos (Or.inr rfl)]

/-- C4 witness: `notes edit-note` with `args` bound to the single string
"5 hello" throws the missing-required-parameter error for `noteId`, and
`notes help` with that value shows the general summary. -/
theorem nonarray_args_witness :
    (JSValue.str "5 hello").asArray = [] ∧
    categoryHandler (notesSubCommands defaultNotesEnv) (.str "edit-note") (.str "5 hello") =
      .error (missingParamMsg "noteId") ∧
    categoryHandler (notesSubCommands defaultNotesEnv) (.str "help") (.str "5 hello") =
      .ok ⟨generalHelp (notesSubCommands defaultNotesEnv)⟩ :=
  nonarray_args (notesSubCommands defaultNotesEnv) (.str "5 hello")
    (editNoteCommand defaultNotesEnv) "edit-note"
    ⟨"noteId", "ID of the note to edit", true, some .pnumber, none⟩
    [⟨"content", "New content (wrap in quotes)", true, some .pstring, none⟩]
    (fun _ h => by cases h) rfl (by decide) (by decide) rfl rfl (by decide)

/-- C5: a parameter spec that is the last of the definition, required and
string-or-untyped consumes all remaining tokens joined with single spaces
as one value; in particular binding tokens a, b, c against a sole required
string parameter yields the value "a b c", and binding 7, a, b against a
required number followed by a trailing required string yields 7 and
"a b". -/
theorem bindParams_slurp (p : ParameterSpec) (toks : List String)
    (hreq : p.required = true) (hty : p.type = some .pstring ∨ p.type = none) :
    bindParams [p] toks = .ok [(p.name, .str (joinSpaces toks))] ∧
    bindParams [⟨"content", "Note content (wrap in quotes)", true, some .pstring, none⟩]
      ["a", "b", "c"] = .ok [("content", .str "a b c")] ∧
    bindParams ((editNoteCommand defaultNotesEnv).parameters) ["7", "a", "b"] =
      .ok [("noteId", .num (.val 7)), ("content", .str "a b")] := by
  refine ⟨?_, by decide, by decide⟩
  rw [bindParams]
  simp [hreq, hty]

/-- C5 witness: the slurp step at the concrete sole required string
parameter and the tokens a, b, c. -/
theorem bindParams_slurp_witness :
    bindParams [⟨"content", "Note content (wrap in quotes)", true, some .pstring, none⟩]
      ["a", "b", "c"] =
    .ok [("content", .str (joinSpaces ["a", "b", "c"]))] :=
  (bindParams_slurp ⟨"content", "Note content (wrap in quotes)", true, some .pstring, none⟩
    ["a", "b", "c"] rfl (Or.inl rfl)).1

/-- C6: for every definition and token list, the binding loop returns
either an argument record whose keys are exactly the definition's
parameter names in order, or one of the two binding errors naming a
concrete parameter of the definition; no other outcome is possible. -/
theorem bindParams_shape (specs : List ParameterSpec) (toks : List String) :
    (∃ r, bindParams specs toks = .ok r ∧ r.map Prod.fst = specs.map ParameterSpec.name) ∨
    (∃ p, p ∈ specs ∧ (bindParams specs toks = .error (missingParamMsg p.name) ∨
      bindParams specs toks = .error (numberParamMsg p.name))) := by
  induction specs generalizing toks with
  | nil => exact Or.inl ⟨[], rfl, rfl⟩
  | cons p rest ih =>
    rw [bindParams]
    split
    · rename_i h
      exact Or.inl ⟨[(p.name, .str (joinSpaces toks))], rfl, by simp [h.1]⟩
    · dsimp only
      split
      · exact Or.inr ⟨p, List.mem_cons_self p rest, Or.inl rfl⟩
      · split
        · rename_i t heq
          split
          · exact Or.inr ⟨p, List.mem_cons_self p rest, Or.inr rfl⟩
          · exact bindStep_shape p rest toks.tail _ (ih toks.tail)
        · exact bindStep_shape p rest toks.tail _ (ih toks.tail)

/-- C7: a number-typed parameter converts its consumed token with
`Number`; when the conversion yields NaN the binding throws the error
naming that parameter (whatever follows in the definition); binding the
token xyz to a number parameter fails naming it, and the token 42 yields
the numeric value 42. -/
theorem bindParams_number_nan (p : ParameterSpec) (rest : List ParameterSpec)
    (t : String) (ts : List String) (hty : p.type = some .pnumber) :
    (jsNumber t = none → bindParams (p :: rest) (t :: ts) = .error (numberParamMsg p.name)) ∧
    bindParams [⟨"noteId", "ID of the note to delete", true, some .pnumber, none⟩] ["xyz"] =
      .error (numberParamMsg "noteId") ∧
    bindParams [⟨"noteId", "ID of the note to delete", true, some .pnumber, none⟩] ["42"] =
      .ok [("noteId", .num (.val 42))] := by
  refine ⟨?_, by decide, by decide⟩
  intro hna
  have ht : t ≠ "" := by
    intro h; subst h
    have : jsNumber "" = some (.val 0) := by decide
    rw [this] at hna; cases hna
  rw [bindParams]
  have hsl : ¬(rest = [] ∧ p.required = true ∧ (p.type = some PType.pstring ∨ p.type = none)) := by
    rw [hty]; rintro ⟨-, -, h | h⟩ <;> cases h
  rw [if_neg hsl]
  dsimp only
  have hful : ¬(falsyTok (t :: ts).head? = true ∧ p.required = true) := by
    simp [falsyTok, ht]
  rw [if_neg hful]
  rw [hty]
  simp [hna]

/-- C7 witness: the NaN branch applied at the concrete number parameter
and the token xyz. -/
theorem bindParams_number_nan_witness :
    bindParams [⟨"noteId", "ID of the note to delete", true, some .pnumber, none⟩] ["xyz"] =
      .error (numberParamMsg "noteId") :=
  (bindParams_number_nan ⟨"noteId", "ID of the note to delete", true, some .pnumber, none⟩
    [] "xyz" [] rfl).1 (by decide)

/-- C8: `notes help` with no further tokens returns the general listing,
which contains every nested command's summary line (name, parameter
signature, description); `notes help` with one token equal to a nested
command's name returns exactly that command's detailed help, which
contains each of its parameter lines; and every parameter line flags
`(Required)`/`(Optional)` and shows any truthy declared default. -/
theorem notes_help_texts (env : NotesEnv) :
    (categoryHandler (notesSubCommands env) (.str "help") (.arr []) =
      .ok ⟨generalHelp (notesSubCommands env)⟩) ∧
    (∀ cmd ∈ notesSubCommands env,
      strContains (generalHelp (notesSubCommands env))
        (padEnd (cmd.name ++ " " ++ joinSpaces (cmd.parameters.map formatParamString)) 30
          ++ " - " ++ cmd.description)) ∧
    (∀ cmd ∈ notesSubCommands env,
      categoryHandler (notesSubCommands env) (.str "help") (.arr [cmd.name]) =
        .ok ⟨detailedHelp cmd⟩ ∧
      ∀ p ∈ cmd.parameters, strContains (detailedHelp cmd) (paramHelpLine p)) ∧
    (∀ p : ParameterSpec,
      strContains (paramHelpLine p) (if p.required = true then "(Required)" else "(Optional)") ∧
      ∀ d, p.defaultValue = some d → d ≠ "" →
        strContains (paramHelpLine p) (" [default: " ++ d ++ "]")) := by
  refine ⟨rfl, ?_, ?_, ?_⟩
  · intro cmd hcmd
    simp only [notesSubCommands, List.mem_cons, List.not_mem_nil, or_false] at hcmd
    rcases hcmd with rfl | rfl | rfl | rfl | rfl
    · show strContains (generalHelp (notesSubCommands defaultNotesEnv))
        (padEnd ((createNoteCommand defaultNotesEnv).name ++ " "
          ++ joinSpaces ((createNoteCommand defaultNotesEnv).parameters.map formatParamString)) 30
          ++ " - " ++ (createNoteCommand defaultNotesEnv).description)
      decide
    · show strContains (generalHelp (notesSubCommands defaultNotesEnv))
        (padEnd ((editNoteCommand defaultNotesEnv).name ++ " "
          ++ joinSpaces ((editNoteCommand defaultNotesEnv).parameters.map formatParamString)) 30
          ++ " - " ++ (editNoteCommand defaultNotesEnv).description)
      decide
    · show strContains (generalHelp (notesSubCommands defaultNotesEnv))
        (padEnd ((deleteNoteCommand defaultNotesEnv).name ++ " "
          ++ joinSpaces ((deleteNoteCommand defaultNotesEnv).parameters.map formatParamString)) 30
          ++ " - " ++ (deleteNoteCommand defaultNotesEnv).description)
      decide
    · show strContains (generalHelp (notesSubCommands defaultNotesEnv))
        (padEnd ((listNotesCommand defaultNotesEnv).name ++ " "
          ++ joinSpaces ((listNotesCommand defaultNotesEnv).parameters.map formatParamString)) 30
          ++ " - " ++ (listNotesCommand defaultNotesEnv).description)
      decide
    · show strContains (generalHelp (notesSubCommands defaultNotesEnv))
        (padEnd ((searchNoteCommand defaultNotesEnv).name ++ " "
          ++ joinSpaces ((searchNoteCommand defaultNotesEnv).parameters.map formatParamString)) 30
          ++ " - " ++ (searchNoteCommand defaultNotesEnv).description)
      decide
  · intro cmd hcmd
    simp only [notesSubCommands, List.mem_cons, List.not_mem_nil, or_false] at hcmd
    rcases hcmd with rfl | rfl | rfl | rfl | rfl
    · refine ⟨rfl, ?_⟩
      intro p hp
      simp only [createNoteCommand, List.mem_cons, List.not_mem_nil, or_false] at hp
      rcases hp with rfl
      show strContains (detailedHelp (createNoteCommand defaultNotesEnv)) (paramHelpLine
        ⟨"content", "Note content (wrap in quotes)", true, some .pstring, none⟩)
      decide
    · refine ⟨rfl, ?_⟩
      intro p hp
      simp only [editNoteCommand, List.mem_cons, List.not_mem_nil, or_false] at hp
      rcases hp with rfl | rfl
      · show strContains (detailedHelp (editNoteCommand defaultNotesEnv)) (paramHelpLine
          ⟨"noteId", "ID of the note to edit", true, some .pnumber, none⟩)
        decide
      · show strContains (detailedHelp (editNoteCommand defaultNotesEnv)) (paramHelpLine
          ⟨"content", "New content (wrap in quotes)", true, some .pstring, none⟩)
        decide
    · refine ⟨rfl, ?_⟩
      intro p hp
      simp only [deleteNoteCommand, List.mem_cons, List.not_mem_nil, or_false] at hp
      rcases hp with rfl
      show strContains (detailedHelp (deleteNoteCommand defaultNotesEnv)) (paramHelpLine
        ⟨"noteId", "ID of the note to delete", true, some .pnumber, none⟩)
      decide
    · refine ⟨rfl, ?_⟩
      intro p hp
      simp only [listNotesCommand, List.not_mem_nil] at hp
    · refine ⟨rfl, ?_⟩
      intro p hp
      simp only [searchNoteCommand, List.mem_cons, List.not_mem_nil, or_false] at hp
      rcases hp with rfl
      show strContains (detailedHelp (searchNoteCommand defaultNotesEnv)) (paramHelpLine
        ⟨"query", "Search query (wrap in quotes)", true, some .pstring, none⟩)
      decide
  · intro p
    rcases p with ⟨pn, pd, pr, pt, pdv⟩
    constructor
    · show _ <:+: (paramHelpLine _).data
      rw [paramHelpLine]
      dsimp only
      exact ⟨("  " ++ pn ++ (match pt with
          | some t => " <" ++ t.tag ++ ">"
          | none => "") ++ ": " ++ pd ++ " ").data,
        (match pdv with
          | some d => if d = "" then "" else " [default: " ++ d ++ "]"
          | none => "").data,
        by simp [String.data_append]⟩
    · intro d hd hdne
      subst hd
      show _ <:+: (paramHelpLine _).data
      rw [paramHelpLine]
      dsimp only
      rw [if_neg hdne]
      exact ⟨("  " ++ pn ++ (match pt with
          | some t => " <" ++ t.tag ++ ">"
          | none => "") ++ ": " ++ pd ++ " "
          ++ (if pr = true then "(Required)" else "(Optional)")).data, [],
        by simp [String.data_append]⟩

/-- C8 witness: the general listing, edit-note's summary line in it, and
edit-note's detailed help, at the concrete registry. -/
theorem notes_help_texts_witness :
    (categoryHandler (notesSubCommands defaultNotesEnv) (.str "help") (.arr []) =
      .ok ⟨generalHelp (notesSubCommands defaultNotesEnv)⟩) ∧
    strContains (generalHelp (notesSubCommands defaultNotesEnv))
      (padEnd ((editNoteCommand defaultNotesEnv).name ++ " "
        ++ joinSpaces ((editNoteCommand defaultNotesEnv).parameters.map formatParamString)) 30
        ++ " - " ++ (editNoteCommand defaultNotesEnv).description) ∧
    categoryHandler (notesSubCommands defaultNotesEnv) (.str "help")
        (.arr [(editNoteCommand defaultNotesEnv).name]) =
      .ok ⟨detailedHelp (editNoteCommand defaultNotesEnv)⟩ :=
  have h := notes_help_texts defaultNotesEnv
  ⟨h.1, h.2.1 (editNoteCommand defaultNotesEnv) (by simp [notesSubCommands]),
   (h.2.2.1 (editNoteCommand defaultNotesEnv) (by simp [notesSubCommands])).1⟩

/-- C9: a sub-command selector matching no nested command name yields the
unknown-sub-command result, whose text suggests using help and names the
selector; nothing is thrown (the outcome is `.ok`). -/
theorem unknown_sub (registry : List Command) (s : String) (v : JSValue)
    (hfind : registry.find? (fun sc => JSValue.str sc.name = JSValue.str s) = none)
    (hhelp : s ≠ "help") (hne : s ≠ "") :
    categoryHandler registry (.str s) v = .ok ⟨unknownSubMsg (.str s)⟩ ∧
    strContains (unknownSubMsg (.str s)) "Try \"notes help\"." ∧
    strContains (unknownSubMsg (.str s)) s := by
  have h1 : ¬(JSValue.str s = JSValue.str "help" ∧ (JSValue.asArray v).length > 0) := by
    rintro ⟨h, -⟩; cases h; exact hhelp rfl
  have h2 : ¬((JSValue.str s).falsy = true ∨ JSValue.str s = JSValue.str "help") := by
    rintro (h | h)
    · simp [JSValue.falsy, hne] at h
    · cases h; exact hhelp rfl
  refine ⟨?_, ?_, ?_⟩
  · rw [categoryHandler, if_neg h1, if_neg h2, hfind]
  · show _ <:+: ("Unknown notes sub-command: " ++ (JSValue.str s).render
      ++ ". Try \"notes help\".").data
    have hsub : ("Try \"notes help\".").data <:+: (". Try \"notes help\".").data := by decide
    refine hsub.trans ?_
    rw [String.data_append]
    exact (List.suffix_append _ _).isInfix
  · show s.data <:+: ("Unknown notes sub-command: " ++ (JSValue.str s).render
      ++ ". Try \"notes help\".").data
    rw [String.data_append, String.data_append]
    exact List.infix_append _ _ _

/-- C9 witness: dispatching the unknown selector zzz through the notes
registry. -/
theorem unknown_sub_witness :
    categoryHandler (notesSubCommands defaultNotesEnv) (.str "zzz") (.arr []) =
      .ok ⟨unknownSubMsg (.str "zzz")⟩ ∧
    strContains (unknownSubMsg (.str "zzz")) "Try \"notes help\"." :=
  have h := unknown_sub (notesSubCommands defaultNotesEnv) "zzz" (.arr [])
    rfl (by decide) (by decide)
  ⟨h.1, h.2.1⟩

/-- C10: an exception thrown by a matched nested command's handler is
caught and converted into a result annotated with that nested command's
name (the matched selector equals the command's name); the category
handler returns `.ok`, never propagating the exception. -/
theorem nested_throw_caught (registry : List Command) (cmd : Command) (n : String)
    (v : JSValue) (bound : List (String × JSValue)) (err : String)
    (hfind : registry.find? (fun sc => JSValue.str sc.name = JSValue.str n) = some cmd)
    (hhelp : n ≠ "help") (hne : n ≠ "")
    (hbind : bindParams cmd.parameters v.asArray = .ok bound)
    (hthrow : cmd.handler bound = .thrown err) :
    categoryHandler registry (.str n) v = .ok ⟨errSubMsg (.str n) err⟩ ∧
    cmd.name = n ∧
    strContains (errSubMsg (.str n) err) cmd.name := by
  have hname : cmd.name = n := by
    have := List.find?_some hfind
    simpa using this
  have h1 : ¬(JSValue.str n = JSValue.str "help" ∧ (JSValue.asArray v).length > 0) := by
    rintro ⟨h, -⟩; cases h; exact hhelp rfl
  have h2 : ¬((JSValue.str n).falsy = true ∨ JSValue.str n = JSValue.str "help") := by
    rintro (h | h)
    · simp [JSValue.falsy, hne] at h
    · cases h; exact hhelp rfl
  refine ⟨?_, hname, ?_⟩
  · rw [categoryHandler, if_neg h1, if_neg h2, hfind]
    simp only [hbind, hthrow]
  · show cmd.name.data <:+: ("❌ Error executing subcommand \""
      ++ (JSValue.str n).render ++ "\": " ++ err).data
    rw [hname]
    exact ⟨("❌ Error executing subcommand \"").data, ("\": ").data ++ err.data,
      by simp [String.data_append, JSValue.render]⟩

/-- C10 witness: a registry with one always-throwing command. -/
theorem nested_throw_caught_witness :
    categoryHandler [throwingCommand] (.str "boom") (.arr []) =
      .ok ⟨errSubMsg (.str "boom") "Error: kaboom"⟩ ∧
    strContains (errSubMsg (.str "boom") "Error: kaboom") "boom" :=
  have h := nested_throw_caught [throwingCommand] throwingCommand "boom" (.arr []) []
    "Error: kaboom" rfl (by decide) (by decide) rfl rfl
  ⟨h.1, h.2.2⟩

end AiOS
